import Mathlib

/-!
# Verification of the actual-mcp-server session/connection layer

Shallow embedding of the repository's four source files:

* `src/actualConnection.ts` — the backend-connection guard `connectToActual`,
  a process-wide three-flag gate (`initialized`, `initializing`,
  `initializationError`) around a one-time handshake (env-var checks, then
  `api.init`, then `api.downloadBudget`);
* `src/server/httpServer.ts` — the session-multiplexed HTTP router
  (POST/GET/DELETE on one path, a `transports` map from session id to
  transport, a SIGINT shutdown handler);
* `src/tools/accounts_list.ts` and the transaction-creation tool — tool
  descriptors with zod input schemas.

JavaScript is single threaded with cooperative yield points only at `await`;
the guard's code is embedded as a labelled transition system whose atomic
steps are exactly the await-free segments of `connectToActual`.
-/

namespace ActualMCP

/-! ## Backend-connection guard (`src/actualConnection.ts`)

Shared module-level state of `actualConnection.ts`:
`let initialized = false; let initializing = false;
 let initializationError: Error | null = null;`.
Errors are modelled as natural numbers.  The `handshakes` field is a ghost
counter incremented each time a caller enters the `try` block (the segment
that checks the env vars and invokes `api.init` / `api.downloadBudget`); it
counts how many times the underlying handshake sequence is started. -/

structure GuardState where
  initialized : Bool
  initializing : Bool
  initializationError : Option Nat
  handshakes : Nat
deriving DecidableEq, Repr


/-- The state of `actualConnection.ts` at module load: all flags clear,
no handshake attempted. -/
def initialGuard : GuardState :=
  { initialized := false, initializing := false,
    initializationError := none, handshakes := 0 }


/-- Where one caller of `connectToActual` stands.  Each constructor is a
maximal await-free segment of the function body:

* `start` — the call has been made but its synchronous prologue
  (lines 14–20: the `initialized` check, the `initializing` check, and
  `initializing = true`, which has no `await` inside) has not run yet;
* `running` — the caller set `initializing = true` and is inside the `try`
  block awaiting `api.init` / `api.downloadBudget`;
* `waiting` — the caller is inside the polling loop
  `while (initializing) await new Promise(...)`;
* `doneOk` — `connectToActual` returned normally;
* `doneErr e` — `connectToActual` threw the error `e`. -/
inductive CallerPC where
  | start
  | running
  | waiting
  | doneOk
  | doneErr (e : Nat)
deriving DecidableEq, Repr


/-- A configuration: the shared guard flags plus the program counter of every
(potential) caller, indexed by `Nat`.  Callers that never invoke
`connectToActual` simply stay at `start`. -/
structure GuardConfig where
  guard : GuardState
  pcs : Nat → CallerPC


/-- All callers poised before their first step, module state fresh. -/
def startConfig : GuardConfig :=
  { guard := initialGuard, pcs := fun _ => CallerPC.start }


/-- Scheduler events.  `prologue i` runs caller `i`'s synchronous prologue;
`resolve i` delivers the result of the handshake that caller `i` is running
(the whole `try`/`catch`/`finally`); `exitWait i` is the atomic segment in
which waiting caller `i` re-checks `initializing`, finds it `false`, leaves
the loop and runs `if (initializationError) throw initializationError;
return;`. -/
inductive GuardEvent where
  | prologue (i : Nat)
  | resolve (i : Nat)
  | exitWait (i : Nat)
deriving DecidableEq, Repr


/-- One atomic step of the embedded `connectToActual`.  `outcome` is the
environment's fixed answer to the handshake: `none` means the env-var
checks, `api.init` and `api.downloadBudget` all succeed, `some e` means the
sequence throws error `e` (which the `catch` block stores in
`initializationError`).  An event whose guard is not enabled (e.g. resolving
a caller that is not running) is a no-op. -/
def guardStep (outcome : Option Nat) (c : GuardConfig) : GuardEvent → GuardConfig
  | GuardEvent.prologue i =>
    match c.pcs i with
    | CallerPC.start =>
      if c.guard.initialized then
        -- line 14: `if (initialized) return;`
        { c with pcs := Function.update c.pcs i CallerPC.doneOk }
      else if c.guard.initializing then
        -- line 15: `if (initializing) { while (initializing) await ... }`
        { c with pcs := Function.update c.pcs i CallerPC.waiting }
      else
        -- line 20: `initializing = true;` then enter the try block
        { guard := { c.guard with
                     initializing := true
                     handshakes := c.guard.handshakes + 1 }
          pcs := Function.update c.pcs i CallerPC.running }
    | _ => c
  | GuardEvent.resolve i =>
    match c.pcs i with
    | CallerPC.running =>
      match outcome with
      | none =>
        -- line 45: `initialized = true;` then `finally { initializing = false }`
        { guard := { c.guard with initialized := true, initializing := false }
          pcs := Function.update c.pcs i CallerPC.doneOk }
      | some e =>
        -- lines 47-53: `initializationError = err; throw initializationError;`
        -- then `finally { initializing = false }`
        { guard := { c.guard with
                     initializationError := some e
                     initializing := false }
          pcs := Function.update c.pcs i (CallerPC.doneErr e) }
    | _ => c
  | GuardEvent.exitWait i =>
    match c.pcs i with
    | CallerPC.waiting =>
      if c.guard.initializing then c
      else
        -- lines 17-18: `if (initializationError) throw initializationError; return;`
        match c.guard.initializationError with
        | some e => { c with pcs := Function.update c.pcs i (CallerPC.doneErr e) }
        | none => { c with pcs := Function.update c.pcs i CallerPC.doneOk }
    | _ => c


/-- Run a schedule of events. -/
def guardRun (outcome : Option Nat) (c : GuardConfig) : List GuardEvent → GuardConfig
  | [] => c
  | e :: es => guardRun outcome (guardStep outcome c e) es


/-- Does the schedule contain a handshake-resolution event? -/
def hasResolve : List GuardEvent → Bool
  | [] => false
  | GuardEvent.resolve _ :: _ => true
  | _ :: es => hasResolve es


/-- Does the schedule contain a caller-prologue event? -/
def hasPrologue : List GuardEvent → Bool
  | [] => false
  | GuardEvent.prologue _ :: _ => true
  | _ :: es => hasPrologue es


/-- A concrete ready configuration: one call has succeeded (caller 0),
a stale captured error is present, caller 1 has not called yet. -/
def readyConfig : GuardConfig :=
  { guard := { initialized := true, initializing := false,
               initializationError := some 7, handshakes := 2 }
    pcs := Function.update (fun _ => CallerPC.start) 0 CallerPC.doneOk }


/-- A concrete post-failure configuration: caller 0's handshake failed with
error 7, caller 1 was waiting on it, caller 2 has not called yet. -/
def failedConfig : GuardConfig :=
  guardRun (some 7) startConfig
    [GuardEvent.prologue 0, GuardEvent.prologue 1, GuardEvent.resolve 0]


/-- Invariant holding while no handshake has resolved: nobody is done, no
error is captured, and the handshake counter is 1 or 0 according to whether
someone already entered the `try` block (in which case `initializing` is
set, making every later prologue take the waiting branch). -/
def Inv1 (c : GuardConfig) : Prop :=
  c.guard.initialized = false ∧
  c.guard.initializationError = none ∧
  (∀ i, c.pcs i = CallerPC.start ∨ c.pcs i = CallerPC.running ∨
        c.pcs i = CallerPC.waiting) ∧
  (c.guard.initializing = true → c.guard.handshakes = 1) ∧
  (c.guard.initializing = false →
    c.guard.handshakes = 0 ∧ ∀ i, c.pcs i = CallerPC.start)


/-- A caller's final state agrees with the environment's handshake answer:
completed-without-error forces a successful handshake, a thrown error is the
handshake's error. -/
def DoneMatches (outcome : Option Nat) : CallerPC → Prop
  | CallerPC.doneOk => outcome = none
  | CallerPC.doneErr e => outcome = some e
  | _ => True


/-- Invariant of the second phase (no further prologues): every finished
caller agrees with the handshake outcome, the captured error (if any) is the
handshake's error, and when the gate is open with no captured error, either
nobody is waiting or the handshake succeeded. -/
def Inv2 (outcome : Option Nat) (c : GuardConfig) : Prop :=
  (∀ i, DoneMatches outcome (c.pcs i)) ∧
  (c.guard.initializationError = none ∨ c.guard.initializationError = outcome) ∧
  (c.guard.initializing = false → c.guard.initializationError = none →
    (∀ i, c.pcs i ≠ CallerPC.waiting) ∨ outcome = none)


/-! ## Session router (`src/server/httpServer.ts`)

`startHttpServer` owns `const transports = new Map<string, ...>()` mapping a
session id (the `mcp-session-id` header) to the transport constructed for it.
Session and transport identities are modelled as naturals; the registry is an
association list looked up front to back (first match), matching `Map`
semantics because keys are never inserted twice.  `crypto.randomUUID()` is
modelled by a fresh-id counter: a UUID never collides with an id already in
the registry, which the counter makes exact (`WFServer` below). -/

structure ServerState where
  transports : List (Nat × Nat)
  nextId : Nat
deriving DecidableEq, Repr


def initialServer : ServerState := { transports := [], nextId := 0 }


/-- `transports.get(sid)` / `transports.has(sid)`. -/
def findTransport : List (Nat × Nat) → Nat → Option Nat
  | [], _ => none
  | (k, t) :: rest, sid => if k = sid then some t else findTransport rest sid


/-- `transports.delete(sid)` (keys are unique, so removing every entry with
the key equals `Map.delete`). -/
def eraseSession : List (Nat × Nat) → Nat → List (Nat × Nat)
  | [], _ => []
  | (k, t) :: rest, sid =>
    if k = sid then eraseSession rest sid else (k, t) :: eraseSession rest sid


inductive HttpMethod where
  | post
  | get
  | delete
deriving DecidableEq, Repr


/-- An inbound request on the MCP path: its verb, its `mcp-session-id`
header, and the JSON-RPC `id` field of its body (echoed by the POST error
path as `req?.body?.id ?? null`). -/
structure HttpRequest where
  method : HttpMethod
  sessionHeader : Option Nat
  bodyId : Option Nat
deriving DecidableEq, Repr


/-- Abbreviation for building a request. -/
def mkReq (m : HttpMethod) (h b : Option Nat) : HttpRequest :=
  { method := m, sessionHeader := h, bodyId := b }


inductive HttpResponse where
  /-- `res.status(400).json({ jsonrpc: '2.0', error: { code: -32000,
      message: 'No valid session ID' }, id })`. -/
  | noValidSession (status : Nat) (code : Int) (id : Option Nat)
  /-- The freshly constructed transport handled the initialization request;
      its response carries the generated session id. -/
  | initialized (sid : Nat)
  /-- The registered transport for the session handled the request. -/
  | handledBy (tid : Nat)
deriving DecidableEq, Repr


/-- `app.post(httpPath, ...)`.  With no session header the router builds a
`StreamableHTTPServerTransport` whose `sessionIdGenerator` yields a fresh id;
the SDK transport then fires `onsessioninitialized(sid)` — which runs
`transports.set(sid, transport)` — and writes the initialization response
carrying that id (the transport/SDK behaviour is modelled from the spec:
"let the transport itself produce the handshake response").  With a session
header the router looks the transport up and forwards, or reports the
no-valid-session error echoing `req.body.id ?? null`. -/
def handlePost (s : ServerState) (req : HttpRequest) : ServerState × HttpResponse :=
  match req.sessionHeader with
  | none =>
    ({ transports := (s.nextId, s.nextId) :: s.transports, nextId := s.nextId + 1 },
     HttpResponse.initialized s.nextId)
  | some sid =>
    match findTransport s.transports sid with
    | none => (s, HttpResponse.noValidSession 400 (-32000) req.bodyId)
    | some tid => (s, HttpResponse.handledBy tid)


/-- `app.get(httpPath, ...)`: missing or unknown session header is the same
no-valid-session error (with `id: null`); otherwise the registered transport
serves the SSE stream. -/
def handleGet (s : ServerState) (req : HttpRequest) : ServerState × HttpResponse :=
  match req.sessionHeader with
  | none => (s, HttpResponse.noValidSession 400 (-32000) none)
  | some sid =>
    match findTransport s.transports sid with
    | none => (s, HttpResponse.noValidSession 400 (-32000) none)
    | some tid => (s, HttpResponse.handledBy tid)


/-- `app.delete(httpPath, ...)`: on a known session the transport handles
the request and then `transports.delete(sessionId)` runs. -/
def handleDelete (s : ServerState) (req : HttpRequest) : ServerState × HttpResponse :=
  match req.sessionHeader with
  | none => (s, HttpResponse.noValidSession 400 (-32000) none)
  | some sid =>
    match findTransport s.transports sid with
    | none => (s, HttpResponse.noValidSession 400 (-32000) none)
    | some tid =>
      ({ s with transports := eraseSession s.transports sid },
       HttpResponse.handledBy tid)


def serverStep (s : ServerState) (req : HttpRequest) : ServerState × HttpResponse :=
  match req.method with
  | HttpMethod.post => handlePost s req
  | HttpMethod.get => handleGet s req
  | HttpMethod.delete => handleDelete s req


def serverRun (s : ServerState) : List HttpRequest → ServerState
  | [] => s
  | r :: rs => serverRun (serverStep s r).1 rs


/-- Registry well-formedness: every registered session id was produced by
the fresh-id supply, so it is below the next fresh id.  (This is the model
of `crypto.randomUUID()` never returning an id already issued.) -/
def WFServer (s : ServerState) : Prop :=
  ∀ p ∈ s.transports, p.1 < s.nextId


/-! ## SIGINT shutdown (`src/server/httpServer.ts`, `process.on('SIGINT')`)

The handler iterates the registry (`transports.forEach`), and for each
transport runs `try { await transport.close(); } catch (err) {
console.error('Error closing transport:', err); }`, then `process.exit(0)`.
`closeResult` is the environment's answer for each transport's `close()`:
`Except.ok ()` for a clean close, `Except.error e` for a throw. -/

structure ShutdownResult where
  attempted : List Nat
  logged : List Nat
  exitCode : Nat
deriving DecidableEq, Repr


/-- The `forEach` loop: each registered transport's `close()` is invoked;
a rejection is caught by the per-transport `catch` and logged, never
re-thrown (the function is total whatever `closeResult` does). -/
def closeAllTransports (closeResult : Nat → Except Nat Unit) :
    List (Nat × Nat) → List Nat × List Nat
  | [] => ([], [])
  | (_, tid) :: rest =>
    let acc := closeAllTransports closeResult rest
    match closeResult tid with
    | Except.ok _ => (tid :: acc.1, acc.2)
    | Except.error e => (tid :: acc.1, e :: acc.2)


/-- The SIGINT handler: close every registered transport (best effort),
then `process.exit(0)` unconditionally. -/
def sigintShutdown (closeResult : Nat → Except Nat Unit) (s : ServerState) :
    ShutdownResult :=
  { attempted := (closeAllTransports closeResult s.transports).1
    logged := (closeAllTransports closeResult s.transports).2
    exitCode := 0 }


/-! ## Tool registry and invocation (`src/tools/accounts_list.ts`,
the transaction-creation tool, `src/types/tool.d.ts`)

Arguments arrive as untyped JSON. The two registered tools' zod schemas are
`z.object({})` (accepts any object, stripping unknown keys, and rejects
non-objects) and `z.any()` (accepts everything). Each handler performs its
one delegated operation against the backend API (`getAccounts()`,
`addTransactions([args])`). -/

inductive JsonValue where
  | null
  | bool (b : Bool)
  | num (n : Int)
  | str (s : String)
  | arr (xs : List JsonValue)
  | obj (fields : List (String × JsonValue))


/-- The zod schemas appearing in the tool sources. -/
inductive ZodSchema where
  | zObjectEmpty
  | zAny
deriving DecidableEq, Repr


/-- Zod validation for the two schema shapes: `z.object({})` parses any
object (extra keys are stripped) and rejects non-objects; `z.any()` accepts
every value. -/
def zodAccepts : ZodSchema → JsonValue → Bool
  | ZodSchema.zObjectEmpty, JsonValue.obj _ => true
  | ZodSchema.zObjectEmpty, _ => false
  | ZodSchema.zAny, _ => true


/-- The single delegated backend operation a handler performs. -/
inductive BackendOp where
  | getAccounts
  | addTransactions (txs : JsonValue)


/-- `ToolDefinition` of `src/types/tool.d.ts`: name, description, input
schema, handler. -/
structure ToolDefinition where
  name : String
  description : String
  inputSchema : ZodSchema
  call : JsonValue → BackendOp


/-- `src/tools/accounts_list.ts`: schema `z.object({})`, handler
`getAccounts()` (the arguments are ignored). -/
def accountsListTool : ToolDefinition :=
  { name := "actual.accounts.list"
    description := "List all accounts"
    inputSchema := ZodSchema.zObjectEmpty
    call := fun _ => BackendOp.getAccounts }


/-- The transaction-creation tool: schema `z.any()`, handler
`addTransactions([args])`. -/
def transactionsCreateTool : ToolDefinition :=
  { name := "actual.transactions.create"
    description := "Create a transaction"
    inputSchema := ZodSchema.zAny
    call := fun args => BackendOp.addTransactions (JsonValue.arr [args]) }


/-- The tools registered by the server. -/
def toolRegistry : List ToolDefinition :=
  [accountsListTool, transactionsCreateTool]


/-- Modelled from the spec: the invocation dispatcher
(`ActualMCPConnection.executeTool`, reached from the `CallToolRequestSchema`
handler; its source is not among the provided files) "validates the supplied
arguments against the schema (structural/type check, not business-rule
validation), then calls the handler".  The result pairs the delegated
backend operation (none when validation fails) with the number of handler
invocations. -/
def executeTool (t : ToolDefinition) (args : JsonValue) : Option BackendOp × Nat :=
  if zodAccepts t.inputSchema args then (some (t.call args), 1) else (none, 0)


/-! ## Theorems -/

theorem guardRun_append (outcome : Option Nat) (c : GuardConfig)
    (t₁ t₂ : List GuardEvent) :
    guardRun outcome c (t₁ ++ t₂) = guardRun outcome (guardRun outcome c t₁) t₂ := by
  induction t₁ generalizing c with
  | nil => rfl
  | cons e es ih => simp [guardRun, ih]


/-- No step ever clears the `initialized` flag: line 45 is the only write to
it and sets it to `true`. -/
theorem guardStep_initialized_mono (outcome : Option Nat) (c : GuardConfig)
    (e : GuardEvent) (h : c.guard.initialized = true) :
    (guardStep outcome c e).guard.initialized = true := by
  cases e with
  | prologue i =>
    cases hpc : c.pcs i <;> simp [guardStep, hpc, h]
  | resolve i =>
    cases hpc : c.pcs i <;> cases outcome <;> simp [guardStep, hpc, h]
  | exitWait i =>
    cases hpc : c.pcs i <;>
      simp only [guardStep, hpc] <;>
      first
        | exact h
        | (split
           · exact h
           · cases herr : c.guard.initializationError <;> simp [herr, h])


/-- Once `initialized` is set, no step changes the handshake counter: the
incrementing branch of the prologue requires `initialized = false`. -/
theorem guardStep_handshakes_const_of_initialized (outcome : Option Nat)
    (c : GuardConfig) (e : GuardEvent) (h : c.guard.initialized = true) :
    (guardStep outcome c e).guard.handshakes = c.guard.handshakes := by
  cases e with
  | prologue i =>
    cases hpc : c.pcs i <;> simp [guardStep, hpc, h]
  | resolve i =>
    cases hpc : c.pcs i <;> cases outcome <;> simp [guardStep, hpc]
  | exitWait i =>
    cases hpc : c.pcs i <;>
      simp only [guardStep, hpc] <;>
      first
        | rfl
        | (split
           · rfl
           · cases herr : c.guard.initializationError <;> simp [herr])


theorem guardRun_initialized_mono (outcome : Option Nat) (c : GuardConfig)
    (t : List GuardEvent) (h : c.guard.initialized = true) :
    (guardRun outcome c t).guard.initialized = true ∧
    (guardRun outcome c t).guard.handshakes = c.guard.handshakes := by
  induction t generalizing c with
  | nil => exact ⟨h, rfl⟩
  | cons e es ih =>
    have h1 := guardStep_initialized_mono outcome c e h
    have h2 := guardStep_handshakes_const_of_initialized outcome c e h
    have := ih (guardStep outcome c e) h1
    exact ⟨this.1, by rw [guardRun, this.2, h2]⟩


/-- C8 (see the claim theorem below): a prologue executed while
`initialized = true` completes the call at once with success and leaves the
entire shared state untouched. -/
theorem guardStep_prologue_of_initialized (outcome : Option Nat)
    (c : GuardConfig) (i : Nat) (hi : c.guard.initialized = true)
    (hpc : c.pcs i = CallerPC.start) :
    (guardStep outcome c (GuardEvent.prologue i)).pcs i = CallerPC.doneOk ∧
    (guardStep outcome c (GuardEvent.prologue i)).guard = c.guard := by
  simp [guardStep, hpc, hi]


/-- C8: "a successful transition to ready is permanent."  In any
configuration where some call has succeeded (`initialized = true`), a fresh
call to `connectToActual` returns successfully in a single step without
touching the shared state, and no schedule of further events ever clears
`initialized` or performs another handshake. -/
theorem connectToActual_ready_permanent (outcome : Option Nat)
    (c : GuardConfig) (i : Nat) (t : List GuardEvent)
    (hi : c.guard.initialized = true) (hpc : c.pcs i = CallerPC.start) :
    (guardStep outcome c (GuardEvent.prologue i)).pcs i = CallerPC.doneOk ∧
    (guardStep outcome c (GuardEvent.prologue i)).guard = c.guard ∧
    (guardRun outcome c t).guard.initialized = true ∧
    (guardRun outcome c t).guard.handshakes = c.guard.handshakes := by
  obtain ⟨h1, h2⟩ := guardStep_prologue_of_initialized outcome c i hi hpc
  obtain ⟨h3, h4⟩ := guardRun_initialized_mono outcome c t hi
  exact ⟨h1, h2, h3, h4⟩


theorem connectToActual_ready_permanent_witness :
    readyConfig.guard.initialized = true ∧
    readyConfig.pcs 1 = CallerPC.start ∧
    ((guardStep none readyConfig (GuardEvent.prologue 1)).pcs 1 = CallerPC.doneOk ∧
     (guardStep none readyConfig (GuardEvent.prologue 1)).guard = readyConfig.guard ∧
     (guardRun none readyConfig [GuardEvent.prologue 1]).guard.initialized = true ∧
     (guardRun none readyConfig [GuardEvent.prologue 1]).guard.handshakes =
       readyConfig.guard.handshakes) :=
  ⟨rfl, rfl,
   connectToActual_ready_permanent none readyConfig 1 [GuardEvent.prologue 1] rfl rfl⟩


/-- C10: the `initialized` check at line 14 runs before any inspection of
`initializationError`, so a call made after success returns successfully
even when a previously failed attempt left `initializationError` non-null. -/
theorem connectToActual_success_shadows_stale_error (outcome : Option Nat)
    (c : GuardConfig) (i : Nat) (e : Nat)
    (hi : c.guard.initialized = true)
    (herr : c.guard.initializationError = some e)
    (hpc : c.pcs i = CallerPC.start) :
    (guardStep outcome c (GuardEvent.prologue i)).pcs i = CallerPC.doneOk := by
  simp [guardStep, hpc, hi]


theorem connectToActual_success_shadows_stale_error_witness :
    readyConfig.guard.initialized = true ∧
    readyConfig.guard.initializationError = some 7 ∧
    readyConfig.pcs 1 = CallerPC.start ∧
    (guardStep (some 9) readyConfig (GuardEvent.prologue 1)).pcs 1 = CallerPC.doneOk :=
  ⟨rfl, rfl, rfl,
   connectToActual_success_shadows_stale_error (some 9) readyConfig 1 7 rfl rfl rfl⟩


/-- C2 counterexample.  Schedule: caller 0 runs its prologue (starting the
handshake), the handshake fails with error 7, then caller 1 makes a fresh
call.  Caller 1 finds `initialized = false` and `initializing = false`, so
it does not throw the captured error: it sets `initializing = true` and
starts a second handshake (the `try` block is entered a second time, so
`api.init` is attempted again).  This refutes the claim that after a failure
every later call throws the captured error without a new handshake. -/
theorem connectToActual_failed_not_terminal_cex :
    -- after the first, failing attempt the captured error is in place:
    (guardRun (some 7) startConfig
      [GuardEvent.prologue 0, GuardEvent.resolve 0]).guard.initializationError
        = some 7 ∧
    (guardRun (some 7) startConfig
      [GuardEvent.prologue 0, GuardEvent.resolve 0]).guard.handshakes = 1 ∧
    -- yet the subsequent call by caller 1 starts a second handshake
    -- instead of throwing:
    (guardRun (some 7) startConfig
      [GuardEvent.prologue 0, GuardEvent.resolve 0,
       GuardEvent.prologue 1]).guard.handshakes = 2 ∧
    (guardRun (some 7) startConfig
      [GuardEvent.prologue 0, GuardEvent.resolve 0,
       GuardEvent.prologue 1]).pcs 1 = CallerPC.running := by
  refine ⟨rfl, rfl, rfl, ?_⟩
  simp [guardRun, guardStep, startConfig, initialGuard]


/-- C2 as amended.  After a failed attempt (state `initialized = false`,
`initializing = false`, `initializationError = some e`):

* every caller still waiting from the failed attempt has the captured error
  `e` re-raised to it, without a new handshake being started; and
* a caller issuing a fresh call does **not** throw the captured error — it
  re-enters the handshake (`initializing` is set and the handshake counter
  increments), i.e. the failed state is re-entrant, not terminal. -/
theorem connectToActual_failure_replayed_to_waiters (outcome : Option Nat)
    (c : GuardConfig) (i j : Nat) (e : Nat)
    (hinit : c.guard.initialized = false)
    (hing : c.guard.initializing = false)
    (herr : c.guard.initializationError = some e)
    (hwait : c.pcs i = CallerPC.waiting)
    (hstart : c.pcs j = CallerPC.start) :
    ((guardStep outcome c (GuardEvent.exitWait i)).pcs i = CallerPC.doneErr e ∧
     (guardStep outcome c (GuardEvent.exitWait i)).guard = c.guard) ∧
    ((guardStep outcome c (GuardEvent.prologue j)).pcs j = CallerPC.running ∧
     (guardStep outcome c (GuardEvent.prologue j)).guard.handshakes =
       c.guard.handshakes + 1 ∧
     (guardStep outcome c (GuardEvent.prologue j)).guard.initializing = true) := by
  constructor
  · simp [guardStep, hwait, hing, herr]
  · simp [guardStep, hstart, hinit, hing]


theorem connectToActual_failure_replayed_to_waiters_witness :
    failedConfig.guard.initialized = false ∧
    failedConfig.guard.initializing = false ∧
    failedConfig.guard.initializationError = some 7 ∧
    failedConfig.pcs 1 = CallerPC.waiting ∧
    failedConfig.pcs 2 = CallerPC.start ∧
    (((guardStep none failedConfig (GuardEvent.exitWait 1)).pcs 1 =
        CallerPC.doneErr 7 ∧
      (guardStep none failedConfig (GuardEvent.exitWait 1)).guard =
        failedConfig.guard) ∧
     ((guardStep none failedConfig (GuardEvent.prologue 2)).pcs 2 =
        CallerPC.running ∧
      (guardStep none failedConfig (GuardEvent.prologue 2)).guard.handshakes =
        failedConfig.guard.handshakes + 1 ∧
      (guardStep none failedConfig (GuardEvent.prologue 2)).guard.initializing =
        true)) := by
  have h1 : failedConfig.pcs 1 = CallerPC.waiting := by
    simp [failedConfig, guardRun, guardStep, startConfig, initialGuard]
  have h2 : failedConfig.pcs 2 = CallerPC.start := by
    simp [failedConfig, guardRun, guardStep, startConfig, initialGuard]
  exact ⟨rfl, rfl, rfl, h1, h2,
    connectToActual_failure_replayed_to_waiters none failedConfig 1 2 7
      rfl rfl rfl h1 h2⟩


theorem Inv1_start : Inv1 startConfig := by
  refine ⟨rfl, rfl, fun i => Or.inl rfl, ?_, ?_⟩ <;>
    simp [startConfig, initialGuard]


/-- A prologue by a caller that is not at `start` changes nothing. -/
theorem guardStep_prologue_noop (outcome : Option Nat) (c : GuardConfig)
    (i : Nat) (h : c.pcs i ≠ CallerPC.start) :
    guardStep outcome c (GuardEvent.prologue i) = c := by
  cases hpc : c.pcs i <;> simp [guardStep, hpc] at h ⊢


/-- An `exitWait` by a caller that is not waiting, or while `initializing`
is still set (the polling loop goes around again), changes nothing. -/
theorem guardStep_exitWait_noop (outcome : Option Nat) (c : GuardConfig)
    (i : Nat) (h : c.pcs i ≠ CallerPC.waiting ∨ c.guard.initializing = true) :
    guardStep outcome c (GuardEvent.exitWait i) = c := by
  cases hpc : c.pcs i <;> rcases h with h | h <;>
    simp [guardStep, hpc, h] at h ⊢ <;> simp [hpc, h]


theorem Inv1_step (outcome : Option Nat) (c : GuardConfig) (e : GuardEvent)
    (hinv : Inv1 c) (hres : ∀ i, e ≠ GuardEvent.resolve i) :
    Inv1 (guardStep outcome c e) := by
  obtain ⟨hin, herr, hpcs, hh1, hh0⟩ := hinv
  cases e with
  | prologue i =>
    by_cases hpc : c.pcs i = CallerPC.start
    · by_cases hg : c.guard.initializing = true
      · -- someone is mid-handshake: caller i joins the waiting loop
        have hstep : guardStep outcome c (GuardEvent.prologue i) =
            { c with pcs := Function.update c.pcs i CallerPC.waiting } := by
          simp [guardStep, hpc, hin, hg]
        rw [hstep]
        refine ⟨hin, herr, ?_, fun _ => hh1 hg, ?_⟩
        · intro j
          rcases eq_or_ne j i with rfl | hne
          · simp [Function.update_same]
          · simpa [Function.update_noteq hne] using hpcs j
        · intro hcontra
          exact absurd (hg.symm.trans hcontra) (by simp)
      · -- caller i starts the handshake itself
        have hg' : c.guard.initializing = false := by simpa using hg
        obtain ⟨hz, _⟩ := hh0 hg'
        have hstep : guardStep outcome c (GuardEvent.prologue i) =
            { guard := { c.guard with
                         initializing := true
                         handshakes := c.guard.handshakes + 1 }
              pcs := Function.update c.pcs i CallerPC.running } := by
          simp [guardStep, hpc, hin, hg']
        rw [hstep]
        refine ⟨hin, herr, ?_, ?_, ?_⟩
        · intro j
          rcases eq_or_ne j i with rfl | hne
          · simp [Function.update_same]
          · simpa [Function.update_noteq hne] using hpcs j
        · intro _
          show c.guard.handshakes + 1 = 1
          rw [hz]
        · intro hcontra
          cases hcontra
    · rw [guardStep_prologue_noop outcome c i hpc]
      exact ⟨hin, herr, hpcs, hh1, hh0⟩
  | resolve i => exact absurd rfl (hres i)
  | exitWait i =>
    by_cases hpc : c.pcs i = CallerPC.waiting
    · by_cases hg : c.guard.initializing = true
      · rw [guardStep_exitWait_noop outcome c i (Or.inr hg)]
        exact ⟨hin, herr, hpcs, hh1, hh0⟩
      · -- with Inv1 and initializing = false nobody can be waiting
        have hg' : c.guard.initializing = false := by simpa using hg
        have := (hh0 hg').2 i
        rw [hpc] at this
        exact absurd this (by simp)
    · rw [guardStep_exitWait_noop outcome c i (Or.inl hpc)]
      exact ⟨hin, herr, hpcs, hh1, hh0⟩


theorem Inv1_run (outcome : Option Nat) (c : GuardConfig)
    (t : List GuardEvent) (hinv : Inv1 c) (hres : hasResolve t = false) :
    Inv1 (guardRun outcome c t) := by
  induction t generalizing c with
  | nil => exact hinv
  | cons e es ih =>
    cases e with
    | prologue i =>
      exact ih (guardStep outcome c (GuardEvent.prologue i))
        (Inv1_step outcome c _ hinv (by intro j h; cases h)) hres
    | resolve i => simp [hasResolve] at hres
    | exitWait i =>
      exact ih (guardStep outcome c (GuardEvent.exitWait i))
        (Inv1_step outcome c _ hinv (by intro j h; cases h)) hres


theorem Inv1_to_Inv2 (outcome : Option Nat) (c : GuardConfig)
    (hinv : Inv1 c) : Inv2 outcome c := by
  obtain ⟨_, herr, hpcs, _, hh0⟩ := hinv
  refine ⟨?_, Or.inl herr, ?_⟩
  · intro i
    rcases hpcs i with h | h | h <;> rw [h] <;> trivial
  · intro hg _
    left
    intro i
    rw [(hh0 hg).2 i]
    simp


/-- Resolving a caller that is not mid-handshake changes nothing. -/
theorem guardStep_resolve_noop (outcome : Option Nat) (c : GuardConfig)
    (i : Nat) (h : c.pcs i ≠ CallerPC.running) :
    guardStep outcome c (GuardEvent.resolve i) = c := by
  cases hpc : c.pcs i <;> simp [guardStep, hpc] at h ⊢


/-- Only a prologue (entering the `try` block) touches the handshake
counter. -/
theorem guardStep_handshakes_const_of_not_prologue (outcome : Option Nat)
    (c : GuardConfig) (e : GuardEvent) (hpro : ∀ i, e ≠ GuardEvent.prologue i) :
    (guardStep outcome c e).guard.handshakes = c.guard.handshakes := by
  cases e with
  | prologue i => exact absurd rfl (hpro i)
  | resolve i =>
    by_cases hpc : c.pcs i = CallerPC.running
    · cases outcome <;> simp [guardStep, hpc]
    · rw [guardStep_resolve_noop outcome c i hpc]
  | exitWait i =>
    by_cases hpc : c.pcs i = CallerPC.waiting
    · by_cases hg : c.guard.initializing = true
      · rw [guardStep_exitWait_noop outcome c i (Or.inr hg)]
      · have hg' : c.guard.initializing = false := by simpa using hg
        cases herr : c.guard.initializationError <;>
          simp [guardStep, hpc, hg', herr]
    · rw [guardStep_exitWait_noop outcome c i (Or.inl hpc)]


theorem Inv2_step (outcome : Option Nat) (c : GuardConfig) (e : GuardEvent)
    (hinv : Inv2 outcome c) (hpro : ∀ i, e ≠ GuardEvent.prologue i) :
    Inv2 outcome (guardStep outcome c e) := by
  obtain ⟨hdone, herr2, hw⟩ := hinv
  cases e with
  | prologue i => exact absurd rfl (hpro i)
  | resolve i =>
    by_cases hpc : c.pcs i = CallerPC.running
    · cases outcome with
      | none =>
        have hstep : guardStep none c (GuardEvent.resolve i) =
            { guard := { c.guard with initialized := true, initializing := false }
              pcs := Function.update c.pcs i CallerPC.doneOk } := by
          simp [guardStep, hpc]
        rw [hstep]
        refine ⟨?_, herr2, fun _ _ => Or.inr rfl⟩
        intro j
        rcases eq_or_ne j i with rfl | hne
        · simp [Function.update_same, DoneMatches]
        · simpa [Function.update_noteq hne] using hdone j
      | some e =>
        have hstep : guardStep (some e) c (GuardEvent.resolve i) =
            { guard := { c.guard with
                         initializationError := some e
                         initializing := false }
              pcs := Function.update c.pcs i (CallerPC.doneErr e) } := by
          simp [guardStep, hpc]
        rw [hstep]
        refine ⟨?_, Or.inr rfl, ?_⟩
        · intro j
          rcases eq_or_ne j i with rfl | hne
          · simp [Function.update_same, DoneMatches]
          · simpa [Function.update_noteq hne] using hdone j
        · intro _ he0
          cases he0
    · rw [guardStep_resolve_noop outcome c i hpc]
      exact ⟨hdone, herr2, hw⟩
  | exitWait i =>
    by_cases hpc : c.pcs i = CallerPC.waiting
    · by_cases hg : c.guard.initializing = true
      · rw [guardStep_exitWait_noop outcome c i (Or.inr hg)]
        exact ⟨hdone, herr2, hw⟩
      · have hg' : c.guard.initializing = false := by simpa using hg
        cases herr : c.guard.initializationError with
        | some e' =>
          have hstep : guardStep outcome c (GuardEvent.exitWait i) =
              { c with pcs := Function.update c.pcs i (CallerPC.doneErr e') } := by
            simp [guardStep, hpc, hg', herr]
          have hout : outcome = some e' := by
            rcases herr2 with h | h
            · rw [herr] at h; cases h
            · rw [herr] at h; exact h.symm
          rw [hstep]
          refine ⟨?_, herr2, ?_⟩
          · intro j
            rcases eq_or_ne j i with rfl | hne
            · simpa [Function.update_same, DoneMatches] using hout
            · simpa [Function.update_noteq hne] using hdone j
          · intro _ he0
            exact absurd (herr.symm.trans he0) (by simp)
        | none =>
          have hstep : guardStep outcome c (GuardEvent.exitWait i) =
              { c with pcs := Function.update c.pcs i CallerPC.doneOk } := by
            simp [guardStep, hpc, hg', herr]
          have hout : outcome = none := by
            rcases hw hg' herr with h | h
            · exact absurd hpc (h i)
            · exact h
          rw [hstep]
          refine ⟨?_, herr2, fun _ _ => Or.inr hout⟩
          intro j
          rcases eq_or_ne j i with rfl | hne
          · simpa [Function.update_same, DoneMatches] using hout
          · simpa [Function.update_noteq hne] using hdone j
    · rw [guardStep_exitWait_noop outcome c i (Or.inl hpc)]
      exact ⟨hdone, herr2, hw⟩


theorem Inv2_run (outcome : Option Nat) (c : GuardConfig)
    (t : List GuardEvent) (hinv : Inv2 outcome c)
    (hpro : hasPrologue t = false) :
    Inv2 outcome (guardRun outcome c t) ∧
    (guardRun outcome c t).guard.handshakes = c.guard.handshakes := by
  induction t generalizing c with
  | nil => exact ⟨hinv, rfl⟩
  | cons e es ih =>
    have hnotpro : ∀ i, e ≠ GuardEvent.prologue i := by
      intro i h
      subst h
      simp [hasPrologue] at hpro
    have hpro' : hasPrologue es = false := by
      cases e with
      | prologue i => exact absurd rfl (hnotpro i)
      | resolve i => simpa [hasPrologue] using hpro
      | exitWait i => simpa [hasPrologue] using hpro
    have hstep := Inv2_step outcome c e hinv hnotpro
    have hconst := guardStep_handshakes_const_of_not_prologue outcome c e hnotpro
    obtain ⟨h1, h2⟩ := ih (guardStep outcome c e) hstep hpro'
    exact ⟨h1, by rw [guardRun, h2, hconst]⟩


/-- C1: a concurrent burst of calls to `connectToActual` from the
not-started state — every caller's synchronous prologue (phase `t₁`) runs
before any handshake result is delivered (phase `t₂`) — starts at most one
underlying handshake, and every caller that completes observes the one
shared outcome: plain return if the handshake succeeded, the single
captured error if it failed. -/
theorem connectToActual_concurrent_single_handshake (outcome : Option Nat)
    (t₁ t₂ : List GuardEvent)
    (h₁ : hasResolve t₁ = false) (h₂ : hasPrologue t₂ = false) :
    (guardRun outcome startConfig (t₁ ++ t₂)).guard.handshakes ≤ 1 ∧
    (∀ i, (guardRun outcome startConfig (t₁ ++ t₂)).pcs i = CallerPC.doneOk →
      outcome = none) ∧
    (∀ i e, (guardRun outcome startConfig (t₁ ++ t₂)).pcs i = CallerPC.doneErr e →
      outcome = some e) := by
  rw [guardRun_append]
  have hinv1 : Inv1 (guardRun outcome startConfig t₁) :=
    Inv1_run outcome startConfig t₁ Inv1_start h₁
  have hcount : (guardRun outcome startConfig t₁).guard.handshakes ≤ 1 := by
    obtain ⟨_, _, _, hh1, hh0⟩ := hinv1
    by_cases hg : (guardRun outcome startConfig t₁).guard.initializing = true
    · rw [hh1 hg]
    · rw [(hh0 (by simpa using hg)).1]
      exact Nat.zero_le 1
  obtain ⟨hinv2, hconst⟩ := Inv2_run outcome (guardRun outcome startConfig t₁) t₂
    (Inv1_to_Inv2 outcome _ hinv1) h₂
  refine ⟨by rw [hconst]; exact hcount, ?_, ?_⟩
  · intro i h
    have := hinv2.1 i
    rw [h] at this
    exact this
  · intro i e h
    have := hinv2.1 i
    rw [h] at this
    exact this


theorem connectToActual_concurrent_single_handshake_witness :
    hasResolve [GuardEvent.prologue 0, GuardEvent.prologue 1] = false ∧
    hasPrologue [GuardEvent.resolve 0, GuardEvent.exitWait 1] = false ∧
    ((guardRun (some 5) startConfig
        ([GuardEvent.prologue 0, GuardEvent.prologue 1] ++
         [GuardEvent.resolve 0, GuardEvent.exitWait 1])).guard.handshakes ≤ 1 ∧
     (∀ i, (guardRun (some 5) startConfig
        ([GuardEvent.prologue 0, GuardEvent.prologue 1] ++
         [GuardEvent.resolve 0, GuardEvent.exitWait 1])).pcs i = CallerPC.doneOk →
        (some 5 : Option Nat) = none) ∧
     (∀ i e, (guardRun (some 5) startConfig
        ([GuardEvent.prologue 0, GuardEvent.prologue 1] ++
         [GuardEvent.resolve 0, GuardEvent.exitWait 1])).pcs i = CallerPC.doneErr e →
        (some 5 : Option Nat) = some e)) :=
  ⟨rfl, rfl,
   connectToActual_concurrent_single_handshake (some 5)
     [GuardEvent.prologue 0, GuardEvent.prologue 1]
     [GuardEvent.resolve 0, GuardEvent.exitWait 1] rfl rfl⟩


/-- C4: a dispatch (POST or GET) whose session header names an id absent
from the registry is answered with the no-valid-session error — HTTP 400,
code `-32000` — and the server state (registry included) is untouched: no
session is created as a side effect. -/
theorem unknown_session_rejected (s : ServerState) (req : HttpRequest)
    (sid : Nat) (hsid : req.sessionHeader = some sid)
    (habs : findTransport s.transports sid = none)
    (hm : req.method = HttpMethod.post ∨ req.method = HttpMethod.get) :
    (serverStep s req).1 = s ∧
    ∃ rid, (serverStep s req).2 = HttpResponse.noValidSession 400 (-32000) rid := by
  rcases hm with hm | hm <;>
    simp [serverStep, hm, handlePost, handleGet, hsid, habs]


theorem unknown_session_rejected_witness :
    ({ method := HttpMethod.get, sessionHeader := some 3, bodyId := none } :
        HttpRequest).sessionHeader = some 3 ∧
    findTransport initialServer.transports 3 = none ∧
    ((serverStep initialServer
        { method := HttpMethod.get, sessionHeader := some 3, bodyId := none }).1 =
      initialServer ∧
     ∃ rid, (serverStep initialServer
        { method := HttpMethod.get, sessionHeader := some 3, bodyId := none }).2 =
      HttpResponse.noValidSession 400 (-32000) rid) :=
  ⟨rfl, rfl,
   unknown_session_rejected initialServer _ 3 rfl rfl (Or.inr rfl)⟩


theorem findTransport_erase (l : List (Nat × Nat)) (k sid : Nat) :
    findTransport (eraseSession l k) sid =
      if k = sid then none else findTransport l sid := by
  induction l with
  | nil => simp [eraseSession, findTransport]
  | cons p rest ih =>
    obtain ⟨pk, pt⟩ := p
    by_cases hk : pk = k
    · subst hk
      by_cases hs : pk = sid
      · subst hs
        simp [eraseSession, findTransport, ih]
      · simp [eraseSession, findTransport, hs, ih]
    · by_cases hs : pk = sid
      · subst hs
        have hks : k ≠ pk := fun h => hk h.symm
        simp [eraseSession, findTransport, hk, hks]
      · simp [eraseSession, findTransport, hk, hs, ih]


/-- C5: after a successful terminate (DELETE with a registered session id),
the transport handled the request, the id is gone from the registry, and
every subsequent POST or GET carrying that id is rejected with HTTP 400
(code `-32000`) without touching the state. -/
theorem terminate_then_rejected (s : ServerState) (sid tid : Nat)
    (delBody : Option Nat)
    (hknown : findTransport s.transports sid = some tid) :
    (serverStep s (mkReq HttpMethod.delete (some sid) delBody)).2 =
      HttpResponse.handledBy tid ∧
    findTransport
      (serverStep s (mkReq HttpMethod.delete (some sid) delBody)).1.transports
      sid = none ∧
    (∀ req : HttpRequest, req.sessionHeader = some sid →
      req.method = HttpMethod.post ∨ req.method = HttpMethod.get →
      (serverStep (serverStep s (mkReq HttpMethod.delete (some sid) delBody)).1
          req).1 =
        (serverStep s (mkReq HttpMethod.delete (some sid) delBody)).1 ∧
      ∃ rid, (serverStep
          (serverStep s (mkReq HttpMethod.delete (some sid) delBody)).1 req).2 =
        HttpResponse.noValidSession 400 (-32000) rid) := by
  have hdel : serverStep s (mkReq HttpMethod.delete (some sid) delBody) =
      ({ s with transports := eraseSession s.transports sid },
       HttpResponse.handledBy tid) := by
    simp [serverStep, mkReq, handleDelete, hknown]
  rw [hdel]
  have hgone : findTransport (eraseSession s.transports sid) sid = none := by
    rw [findTransport_erase]
    simp
  refine ⟨rfl, hgone, ?_⟩
  intro req hsid hm
  exact unknown_session_rejected _ req sid hsid hgone hm


theorem terminate_then_rejected_witness :
    findTransport
      (serverStep initialServer (mkReq HttpMethod.post none none)).1.transports
      0 = some 0 ∧
    ((serverStep (serverStep initialServer (mkReq HttpMethod.post none none)).1
        (mkReq HttpMethod.delete (some 0) none)).2 = HttpResponse.handledBy 0 ∧
     findTransport
       (serverStep (serverStep initialServer (mkReq HttpMethod.post none none)).1
         (mkReq HttpMethod.delete (some 0) none)).1.transports 0 = none ∧
     (∀ req : HttpRequest, req.sessionHeader = some 0 →
       req.method = HttpMethod.post ∨ req.method = HttpMethod.get →
       (serverStep (serverStep
           (serverStep initialServer (mkReq HttpMethod.post none none)).1
           (mkReq HttpMethod.delete (some 0) none)).1 req).1 =
         (serverStep (serverStep initialServer (mkReq HttpMethod.post none none)).1
           (mkReq HttpMethod.delete (some 0) none)).1 ∧
       ∃ rid, (serverStep (serverStep
           (serverStep initialServer (mkReq HttpMethod.post none none)).1
           (mkReq HttpMethod.delete (some 0) none)).1 req).2 =
         HttpResponse.noValidSession 400 (-32000) rid)) :=
  ⟨rfl, terminate_then_rejected
    (serverStep initialServer (mkReq HttpMethod.post none none)).1 0 0 none rfl⟩


theorem findTransport_none_of_lt (l : List (Nat × Nat)) (n : Nat)
    (h : ∀ p ∈ l, p.1 < n) : findTransport l n = none := by
  induction l with
  | nil => rfl
  | cons p rest ih =>
    obtain ⟨pk, pt⟩ := p
    simp only [findTransport]
    rw [if_neg (Nat.ne_of_lt (h (pk, pt) (List.mem_cons_self _ _)))]
    exact ih fun q hq => h q (List.mem_cons_of_mem _ hq)


/-- C6: a POST with no `mcp-session-id` header allocates the fresh id,
constructs and registers a transport bound to it (the registry gains exactly
one entry, at a previously unregistered id), and the transport itself
produces the initialization response carrying that id. -/
theorem init_creates_fresh_session (s : ServerState) (req : HttpRequest)
    (hm : req.method = HttpMethod.post) (hh : req.sessionHeader = none)
    (hwf : WFServer s) :
    (serverStep s req).2 = HttpResponse.initialized s.nextId ∧
    findTransport s.transports s.nextId = none ∧
    findTransport (serverStep s req).1.transports s.nextId = some s.nextId ∧
    (serverStep s req).1.transports.length = s.transports.length + 1 := by
  have hfresh : findTransport s.transports s.nextId = none :=
    findTransport_none_of_lt s.transports s.nextId hwf
  have hstep : serverStep s req =
      ({ transports := (s.nextId, s.nextId) :: s.transports, nextId := s.nextId + 1 },
       HttpResponse.initialized s.nextId) := by
    simp [serverStep, hm, handlePost, hh]
  rw [hstep]
  exact ⟨rfl, hfresh, by simp [findTransport], rfl⟩


theorem init_creates_fresh_session_witness :
    (mkReq HttpMethod.post none (some 1)).method = HttpMethod.post ∧
    (mkReq HttpMethod.post none (some 1)).sessionHeader = none ∧
    WFServer initialServer ∧
    ((serverStep initialServer (mkReq HttpMethod.post none (some 1))).2 =
      HttpResponse.initialized initialServer.nextId ∧
     findTransport initialServer.transports initialServer.nextId = none ∧
     findTransport (serverStep initialServer
        (mkReq HttpMethod.post none (some 1))).1.transports initialServer.nextId =
       some initialServer.nextId ∧
     (serverStep initialServer (mkReq HttpMethod.post none (some 1))).1.transports.length =
       initialServer.transports.length + 1) :=
  ⟨rfl, rfl, fun p hp => absurd hp (List.not_mem_nil p),
   init_creates_fresh_session initialServer _ rfl rfl
     (fun p hp => absurd hp (List.not_mem_nil p))⟩


theorem findTransport_mem (l : List (Nat × Nat)) (sid tid : Nat)
    (h : findTransport l sid = some tid) : (sid, tid) ∈ l := by
  induction l with
  | nil => cases h
  | cons p rest ih =>
    obtain ⟨pk, pt⟩ := p
    by_cases hs : pk = sid
    · subst hs
      simp only [findTransport, if_pos trivial, eq_self_iff_true, if_true,
        Option.some_inj] at h
      subst h
      exact List.mem_cons_self _ _
    · simp only [findTransport, if_neg hs] at h
      exact List.mem_cons_of_mem _ (ih h)


theorem mem_eraseSession (l : List (Nat × Nat)) (k : Nat) (p : Nat × Nat)
    (h : p ∈ eraseSession l k) : p ∈ l := by
  induction l with
  | nil => cases h
  | cons q rest ih =>
    obtain ⟨qk, qt⟩ := q
    by_cases hk : qk = k
    · simp only [eraseSession, if_pos hk] at h
      exact List.mem_cons_of_mem _ (ih h)
    · simp only [eraseSession, if_neg hk] at h
      rcases List.mem_cons.mp h with h | h
      · exact h ▸ List.mem_cons_self _ _
      · exact List.mem_cons_of_mem _ (ih h)


/-- One router step never rebinds a session to a different transport, never
resurrects a removed (but previously issued) session id, keeps the fresh-id
supply monotone and preserves registry well-formedness. -/
theorem serverStep_binding (s : ServerState) (req : HttpRequest)
    (hwf : WFServer s) :
    WFServer (serverStep s req).1 ∧
    s.nextId ≤ (serverStep s req).1.nextId ∧
    (∀ sid tid, findTransport s.transports sid = some tid →
      findTransport (serverStep s req).1.transports sid = some tid ∨
      findTransport (serverStep s req).1.transports sid = none) ∧
    (∀ sid, sid < s.nextId → findTransport s.transports sid = none →
      findTransport (serverStep s req).1.transports sid = none) := by
  cases hm : req.method with
  | post =>
    cases hh : req.sessionHeader with
    | none =>
      have hstep : (serverStep s req).1 =
          { transports := (s.nextId, s.nextId) :: s.transports,
            nextId := s.nextId + 1 } := by
        simp [serverStep, hm, handlePost, hh]
      rw [hstep]
      refine ⟨?_, Nat.le_succ _, ?_, ?_⟩
      · intro p hp
        rcases List.mem_cons.mp hp with h | h
        · rw [h]
          exact Nat.lt_succ_self _
        · exact Nat.lt_succ_of_lt (hwf p h)
      · intro sid tid h
        have hlt : sid < s.nextId := hwf _ (findTransport_mem _ _ _ h)
        left
        simp only [findTransport, if_neg (Nat.ne_of_gt hlt)]
        exact h
      · intro sid hlt h
        simp only [findTransport, if_neg (Nat.ne_of_gt hlt)]
        exact h
    | some sid0 =>
      cases hf : findTransport s.transports sid0 with
      | none =>
        have hstep : (serverStep s req).1 = s := by
          simp [serverStep, hm, handlePost, hh, hf]
        rw [hstep]
        exact ⟨hwf, Nat.le_refl _, fun _ _ h => Or.inl h, fun _ _ h => h⟩
      | some tid0 =>
        have hstep : (serverStep s req).1 = s := by
          simp [serverStep, hm, handlePost, hh, hf]
        rw [hstep]
        exact ⟨hwf, Nat.le_refl _, fun _ _ h => Or.inl h, fun _ _ h => h⟩
  | get =>
    have hstep : (serverStep s req).1 = s := by
      cases hh : req.sessionHeader with
      | none => simp [serverStep, hm, handleGet, hh]
      | some sid0 =>
        cases hf : findTransport s.transports sid0 <;>
          simp [serverStep, hm, handleGet, hh, hf]
    rw [hstep]
    exact ⟨hwf, Nat.le_refl _, fun _ _ h => Or.inl h, fun _ _ h => h⟩
  | delete =>
    cases hh : req.sessionHeader with
    | none =>
      have hstep : (serverStep s req).1 = s := by
        simp [serverStep, hm, handleDelete, hh]
      rw [hstep]
      exact ⟨hwf, Nat.le_refl _, fun _ _ h => Or.inl h, fun _ _ h => h⟩
    | some sid0 =>
      cases hf : findTransport s.transports sid0 with
      | none =>
        have hstep : (serverStep s req).1 = s := by
          simp [serverStep, hm, handleDelete, hh, hf]
        rw [hstep]
        exact ⟨hwf, Nat.le_refl _, fun _ _ h => Or.inl h, fun _ _ h => h⟩
      | some tid0 =>
        have hstep : (serverStep s req).1 =
            { s with transports := eraseSession s.transports sid0 } := by
          simp [serverStep, hm, handleDelete, hh, hf]
        rw [hstep]
        refine ⟨?_, Nat.le_refl _, ?_, ?_⟩
        · intro p hp
          exact hwf p (mem_eraseSession _ _ _ hp)
        · intro sid tid h
          rw [findTransport_erase]
          by_cases he : sid0 = sid
          · rw [if_pos he]
            right
            rfl
          · rw [if_neg he]
            exact Or.inl h
        · intro sid hlt h
          rw [findTransport_erase]
          by_cases he : sid0 = sid
          · rw [if_pos he]
          · rw [if_neg he]
            exact h


/-- C7: over any sequence of requests, an issued session id keeps its
original transport until (at most one) removal — no step rebinds it to a
different transport, and once removed it never reappears (fresh ids are
never re-issued). -/
theorem session_binding_stable (s : ServerState) (reqs : List HttpRequest)
    (hwf : WFServer s) :
    WFServer (serverRun s reqs) ∧
    s.nextId ≤ (serverRun s reqs).nextId ∧
    (∀ sid tid, findTransport s.transports sid = some tid →
      findTransport (serverRun s reqs).transports sid = some tid ∨
      findTransport (serverRun s reqs).transports sid = none) ∧
    (∀ sid, sid < s.nextId → findTransport s.transports sid = none →
      findTransport (serverRun s reqs).transports sid = none) := by
  induction reqs generalizing s with
  | nil => exact ⟨hwf, Nat.le_refl _, fun _ _ h => Or.inl h, fun _ _ h => h⟩
  | cons r rs ih =>
    obtain ⟨hwf', hmono', hbind', hnone'⟩ := serverStep_binding s r hwf
    obtain ⟨hwfr, hmonor, hbindr, hnoner⟩ := ih (serverStep s r).1 hwf'
    refine ⟨hwfr, Nat.le_trans hmono' hmonor, ?_, ?_⟩
    · intro sid tid h
      have hlt : sid < s.nextId := hwf _ (findTransport_mem _ _ _ h)
      rcases hbind' sid tid h with h' | h'
      · exact hbindr sid tid h'
      · exact Or.inr (hnoner sid (Nat.lt_of_lt_of_le hlt hmono') h')
    · intro sid hlt h
      exact hnoner sid (Nat.lt_of_lt_of_le hlt hmono') (hnone' sid hlt h)


theorem session_binding_stable_witness :
    WFServer (serverStep initialServer (mkReq HttpMethod.post none none)).1 ∧
    (WFServer (serverRun
        (serverStep initialServer (mkReq HttpMethod.post none none)).1
        [mkReq HttpMethod.delete (some 0) none, mkReq HttpMethod.post none none]) ∧
     (serverStep initialServer (mkReq HttpMethod.post none none)).1.nextId ≤
       (serverRun (serverStep initialServer (mkReq HttpMethod.post none none)).1
         [mkReq HttpMethod.delete (some 0) none,
          mkReq HttpMethod.post none none]).nextId ∧
     (∀ sid tid, findTransport
        (serverStep initialServer (mkReq HttpMethod.post none none)).1.transports
        sid = some tid →
       findTransport (serverRun
          (serverStep initialServer (mkReq HttpMethod.post none none)).1
          [mkReq HttpMethod.delete (some 0) none,
           mkReq HttpMethod.post none none]).transports sid = some tid ∨
       findTransport (serverRun
          (serverStep initialServer (mkReq HttpMethod.post none none)).1
          [mkReq HttpMethod.delete (some 0) none,
           mkReq HttpMethod.post none none]).transports sid = none) ∧
     (∀ sid, sid < (serverStep initialServer (mkReq HttpMethod.post none none)).1.nextId →
       findTransport
         (serverStep initialServer (mkReq HttpMethod.post none none)).1.transports
         sid = none →
       findTransport (serverRun
          (serverStep initialServer (mkReq HttpMethod.post none none)).1
          [mkReq HttpMethod.delete (some 0) none,
           mkReq HttpMethod.post none none]).transports sid = none)) := by
  have hwf : WFServer (serverStep initialServer (mkReq HttpMethod.post none none)).1 := by
    intro p hp
    simp [serverStep, mkReq, handlePost, initialServer] at hp
    simp [hp, initialServer, serverStep, mkReq, handlePost]
  exact ⟨hwf, session_binding_stable _ _ hwf⟩


/-- C9: on SIGINT every transport in the registry has its `close()`
attempted; a close failure is logged by the per-transport catch and not
propagated (the handler always completes); the process exits with code 0
regardless of how many closes failed. -/
theorem sigint_closes_all_and_exits (closeResult : Nat → Except Nat Unit)
    (s : ServerState) :
    (sigintShutdown closeResult s).exitCode = 0 ∧
    (sigintShutdown closeResult s).attempted = s.transports.map Prod.snd ∧
    (∀ p ∈ s.transports, ∀ e, closeResult p.2 = Except.error e →
      e ∈ (sigintShutdown closeResult s).logged) := by
  refine ⟨rfl, ?_, ?_⟩
  · show (closeAllTransports closeResult s.transports).1 = _
    induction s.transports with
    | nil => rfl
    | cons p rest ih =>
      obtain ⟨sid, tid⟩ := p
      simp only [closeAllTransports, List.map]
      cases closeResult tid <;> simp [ih]
  · show ∀ p ∈ s.transports, ∀ e, _ → e ∈ (closeAllTransports closeResult s.transports).2
    induction s.transports with
    | nil => intro p hp; cases hp
    | cons q rest ih =>
      intro p hp e he
      obtain ⟨qsid, qtid⟩ := q
      rcases List.mem_cons.mp hp with h | h
      · subst h
        simp only [closeAllTransports]
        rw [he]
        exact List.mem_cons_self _ _
      · have hrest := ih p h e he
        cases hc : closeResult qtid with
        | ok u => simpa [closeAllTransports, hc] using hrest
        | error x =>
          simp only [closeAllTransports, hc]
          exact List.mem_cons_of_mem _ hrest


theorem sigint_closes_all_and_exits_witness :
    ((0, 10), (1, 11)) ∈ [((0, 10), (1, 11))] ∧
    ((sigintShutdown (fun t => if t = 11 then Except.error 99 else Except.ok ())
        { transports := [(0, 10), (1, 11)], nextId := 2 }).exitCode = 0 ∧
     (sigintShutdown (fun t => if t = 11 then Except.error 99 else Except.ok ())
        { transports := [(0, 10), (1, 11)], nextId := 2 }).attempted =
       [(0, 10), (1, 11)].map Prod.snd ∧
     (∀ p ∈ [(0, 10), (1, 11)], ∀ e,
       (fun t => if t = 11 then Except.error 99 else Except.ok ()) p.2 =
         (Except.error e : Except Nat Unit) →
       e ∈ (sigintShutdown (fun t => if t = 11 then Except.error 99 else Except.ok ())
         { transports := [(0, 10), (1, 11)], nextId := 2 }).logged)) :=
  ⟨List.mem_cons_self _ _,
   sigint_closes_all_and_exits
     (fun t => if t = 11 then Except.error 99 else Except.ok ())
     { transports := [(0, 10), (1, 11)], nextId := 2 }⟩


/-- C3: for every registered tool, schema-invalid input makes the
invocation fail before the handler runs — the handler observes zero calls
and no backend operation is performed — and conversely any invocation that
reaches the handler had schema-valid input. -/
theorem invalid_input_never_reaches_handler (t : ToolDefinition)
    (ht : t ∈ toolRegistry) (v : JsonValue)
    (hv : zodAccepts t.inputSchema v = false) :
    (executeTool t v).2 = 0 ∧
    (executeTool t v).1 = none ∧
    (∀ w, (executeTool t w).2 ≠ 0 → zodAccepts t.inputSchema w = true) := by
  refine ⟨by simp [executeTool, hv], by simp [executeTool, hv], ?_⟩
  intro w hw
  by_cases h : zodAccepts t.inputSchema w = true
  · exact h
  · exact absurd (by simp [executeTool, h]) hw


theorem invalid_input_never_reaches_handler_witness :
    accountsListTool ∈ toolRegistry ∧
    zodAccepts accountsListTool.inputSchema (JsonValue.num 3) = false ∧
    ((executeTool accountsListTool (JsonValue.num 3)).2 = 0 ∧
     (executeTool accountsListTool (JsonValue.num 3)).1 = none ∧
     (∀ w, (executeTool accountsListTool w).2 ≠ 0 →
       zodAccepts accountsListTool.inputSchema w = true)) :=
  ⟨List.mem_cons_self _ _, rfl,
   invalid_input_never_reaches_handler accountsListTool
     (List.mem_cons_self _ _) (JsonValue.num 3) rfl⟩


end ActualMCP

